import Mathlib

/-!
Verification of the dinobar game core (src/main.rs) against its
natural-language specification.

The per-frame simulation code of `real_main`, the `jump` closure and
`Scene::draw` are shallowly embedded below.  Floating-point (`f64`)
quantities are modelled as real numbers, millisecond durations
(`u128` from `as_millis`) as naturals, and the per-frame random gaps
(`rng.gen_range(150.0..500.0)`) as an arbitrary stream `gaps : ℕ → ℝ`
whose values are constrained by hypotheses where a claim needs them.
-/

namespace Dinobar

/-- Vertical state of the player (the dino drawable at index 0 together
with the separate `dino_velocity` variable): height `y` above the ground
baseline and vertical velocity `v`. -/
structure Player where
  y : ℝ
  v : ℝ

/-- State of one obstacle (tree drawable) as used by the per-frame loop:
horizontal position and sprite size. -/
structure Tree where
  x : ℝ
  width : ℝ
  height : ℝ

/-- Dirty rectangle handed to the display backend
(`drm::control::ClipRect`). -/
structure ClipRect where
  x1 : ℕ
  y1 : ℕ
  x2 : ℕ
  y2 : ℕ

/-- Spec name for the gravity constant `30.0` of main.rs line 310. -/
def GRAVITY_ACCEL : ℝ := 30

/-- Spec name for the scroll-speed constant `150.0` of main.rs line 323. -/
def SCROLL_SPEED : ℝ := 150

/-- Spec name for the impulse scale `400.0` of main.rs line 296. -/
def JUMP_SCALE : ℝ := 400

/-- Spec name for the lower clamp bound `50` of main.rs line 295. -/
def MIN_CHARGE_MS : ℕ := 50

/-- Source constant `max_down_time = 120` (main.rs line 287); the spec
calls it MAX_CHARGE_MS. -/
def max_down_time : ℕ := 120

/-- Spec name for `max_down_time`. -/
def MAX_CHARGE_MS : ℕ := 120

/-- Source constant `player_x_offset = 10.0` (main.rs line 291). -/
def player_x_offset : ℝ := 10

/-- Gravity integration and ground clamp of one frame
(main.rs lines 310-316): the velocity first loses `30 * dt * y`
(gravity scaled by current height), the new velocity is then integrated
into `y`, and if the resulting `y` is `≤ 0` both `y` and the velocity
are reset to `0`. -/
noncomputable def dinoStep (p : Player) (dt : ℝ) : Player :=
  let v1 := p.v - 30 * dt * p.y
  let y1 := p.y + v1 * dt
  if y1 ≤ 0 then { y := 0, v := 0 } else { y := y1, v := v1 }

/-- Rust `elapsed.clamp(50, max_down_time)` of main.rs line 295. -/
def clamped_elapsed (elapsed : ℕ) : ℕ := min (max elapsed 50) max_down_time

/-- Impulse added to the velocity by a grounded jump
(main.rs line 296): `400.0 * (clamped / max_down_time).powf(1/2)`. -/
noncomputable def impulse (elapsed : ℕ) : ℝ :=
  400 * ((clamped_elapsed elapsed : ℝ) / (max_down_time : ℝ)) ^ ((1 : ℝ) / 2)

/-- The `jump` closure (main.rs lines 293-299): only when the player is
exactly on the ground (`y == 0.0`) it adds the charge impulse to the
velocity and raises `y` by `1.0`; otherwise it does nothing. -/
noncomputable def jump (p : Player) (elapsed : ℕ) : Player :=
  if p.y = 0 then { y := p.y + 1, v := p.v + impulse elapsed } else p

/-- Auto-release check run once per frame (main.rs lines 348-354).
The controller state is the optional charge start; `e` is the elapsed
charge duration in ms at the time of the `>= max_down_time` test and
`elapsedAtCall` the (re-sampled, hence possibly larger) elapsed duration
passed to `jump`.  Returns the new controller state and player. -/
noncomputable def autoReleaseCheck (p : Player) (downElapsed : Option ℕ)
    (elapsedAtCall : ℕ) : Option ℕ × Player :=
  match downElapsed with
  | none => (none, p)
  | some e =>
    if max_down_time ≤ e then (none, jump p elapsedAtCall) else (some e, p)

/-- One frame of the obstacle loop (main.rs lines 319-339), processing
the trees in store order with the running recycle offset `off` (initially
`0.0`) and the stream `gaps` of random gap samples still to be consumed.
Each tree first scrolls left by `speed`; a tree whose right edge is at or
past the left screen edge is recycled to `W + off` (the gap sample is
added to `off` afterwards) and skips the collision check; otherwise the
asymmetric collision test against the player runs and a hit returns
`none` (game over, `return ()` in the source).  `some l` is the list of
updated trees when the frame completes. -/
noncomputable def treeLoop (py pw W speed : ℝ) :
    List Tree → (ℕ → ℝ) → ℝ → Option (List Tree)
  | [], _, _ => some []
  | tr :: rest, gaps, off =>
    let x1 := tr.x - speed
    if x1 + tr.width ≤ 0 then
      Option.map (fun l => { tr with x := W + off } :: l)
        (treeLoop py pw W speed rest (fun n => gaps (n + 1)) (off + gaps 0))
    else if x1 ≤ pw + player_x_offset ∧ player_x_offset < x1 ∧ py ≤ tr.height then
      none
    else
      Option.map (fun l => { tr with x := x1 } :: l)
        (treeLoop py pw W speed rest gaps off)

/-- A tree is recycled this frame when, after scrolling, its right edge
is at or past the left screen edge (main.rs line 325). -/
def treeRecycles (speed : ℝ) (tr : Tree) : Prop :=
  tr.x - speed + tr.width ≤ 0

/-- The collision test of main.rs lines 332-334, on the scrolled
position. -/
def treeHits (py pw speed : ℝ) (tr : Tree) : Prop :=
  tr.x - speed ≤ pw + player_x_offset ∧ player_x_offset < tr.x - speed ∧
    py ≤ tr.height

/-- Number of gap samples consumed before tree `i` is processed: the
count of recycled trees among the first `i` trees of the frame. -/
noncomputable def recycCountBefore (speed : ℝ) : List Tree → ℕ → ℕ
  | [], _ => 0
  | _ :: _, 0 => 0
  | tr :: rest, i + 1 =>
    recycCountBefore speed rest i + (if tr.x - speed + tr.width ≤ 0 then 1 else 0)

/-- Return value of `Scene::draw` (main.rs lines 143-186): the
`modified_regions` vector is created empty at line 151 and returned
unchanged at line 185 - nothing is ever pushed to it. -/
def sceneDrawRegions : List ClipRect := []

/-- The dirty region the frame loop actually reports to the display each
frame (main.rs line 345): one full-screen rectangle. -/
def presentDirtyRects (width height : ℕ) : List ClipRect :=
  [{ x1 := 0, y1 := 0, x2 := height, y2 := width }]

/-- The frame period as the source computes it (main.rs line 393):
`1 / 144` with integer semantics, truncating to `0`, before the cast to
float. -/
def frame_period : Int := 1 / 144

/-- The quantity `(1 / 144) as f64 - delta` of main.rs line 393. -/
noncomputable def sleep_time (dt : ℝ) : ℝ := (frame_period : ℝ) - dt

/-- Seconds actually slept at the end of a frame (main.rs lines 394-396):
only when `sleep_time` is strictly positive, and then truncated to whole
seconds by `as u64` inside `Duration::from_secs`. -/
noncomputable def sleptSeconds (dt : ℝ) : ℕ :=
  if 0 < sleep_time dt then Nat.floor (sleep_time dt) else 0

theorem frame_period_eq : frame_period = 0 := by decide

/-- The obstacle loop ends the frame in game over exactly when some tree
that is not recycled this frame passes the collision test at its
scrolled position.  The running offset and the gap stream never
influence the outcome, only recycled positions. -/
theorem treeLoop_eq_none_iff (py pw W speed : ℝ) :
    ∀ (trees : List Tree) (gaps : ℕ → ℝ) (off : ℝ),
      treeLoop py pw W speed trees gaps off = none ↔
        ∃ tr ∈ trees, ¬ treeRecycles speed tr ∧ treeHits py pw speed tr := by
  intro trees
  induction trees with
  | nil =>
    intro gaps off
    simp [treeLoop]
  | cons tr rest ih =>
    intro gaps off
    simp only [treeLoop]
    by_cases hrec : tr.x - speed + tr.width ≤ 0
    · rw [if_pos hrec, Option.map_eq_none']
      rw [ih (fun n => gaps (n + 1)) (off + gaps 0)]
      constructor
      · rintro ⟨tr2, htr2, hcond⟩
        exact ⟨tr2, List.mem_cons_of_mem _ htr2, hcond⟩
      · rintro ⟨tr2, htr2, hcond⟩
        rcases List.mem_cons.mp htr2 with h | h
        · subst h
          exact absurd hrec hcond.1
        · exact ⟨tr2, h, hcond⟩
    · rw [if_neg hrec]
      by_cases hhit : tr.x - speed ≤ pw + player_x_offset ∧
          player_x_offset < tr.x - speed ∧ py ≤ tr.height
      · rw [if_pos hhit]
        constructor
        · intro _
          exact ⟨tr, List.mem_cons_self _ _, hrec, hhit⟩
        · intro _
          rfl
      · rw [if_neg hhit, Option.map_eq_none']
        rw [ih gaps off]
        constructor
        · rintro ⟨tr2, htr2, hcond⟩
          exact ⟨tr2, List.mem_cons_of_mem _ htr2, hcond⟩
        · rintro ⟨tr2, htr2, hcond⟩
          rcases List.mem_cons.mp htr2 with h | h
          · subst h
            exact absurd hcond.2 hhit
          · exact ⟨tr2, h, hcond⟩

/-- When the frame completes (no collision), every tree has scrolled by
`speed`; a recycled tree sits at `W + off +` the sum of the gap samples
consumed by the trees recycled before it, all other trees at their
scrolled position. -/
theorem treeLoop_some_spec (py pw W speed : ℝ) :
    ∀ (trees : List Tree) (gaps : ℕ → ℝ) (off : ℝ) (l2 : List Tree),
      treeLoop py pw W speed trees gaps off = some l2 →
      l2.length = trees.length ∧
      ∀ i (hi : i < trees.length) (hi2 : i < l2.length),
        (¬ treeRecycles speed trees[i] → l2[i].x = trees[i].x - speed) ∧
        (treeRecycles speed trees[i] →
          l2[i].x =
            W + off + Finset.sum (Finset.range (recycCountBefore speed trees i)) gaps) := by
  intro trees
  induction trees with
  | nil =>
    intro gaps off l2 hsome
    simp only [treeLoop, Option.some.injEq] at hsome
    subst hsome
    exact ⟨rfl, fun i hi => absurd hi (by simp)⟩
  | cons tr rest ih =>
    intro gaps off l2 hsome
    simp only [treeLoop] at hsome
    by_cases hrec : tr.x - speed + tr.width ≤ 0
    · rw [if_pos hrec, Option.map_eq_some'] at hsome
      obtain ⟨l, hl, rfl⟩ := hsome
      obtain ⟨hlen, hpos⟩ := ih (fun n => gaps (n + 1)) (off + gaps 0) l hl
      refine ⟨by simpa using hlen, ?_⟩
      intro i hi hi2
      cases i with
      | zero =>
        refine ⟨fun hnr => absurd hrec hnr, fun _ => ?_⟩
        show ({ tr with x := W + off } : Tree).x = _
        simp [recycCountBefore]
      | succ i =>
        have hi' : i < rest.length := by simpa using hi
        have hi2' : i < l.length := by simpa using hi2
        have hthis := hpos i hi' hi2'
        simp only [List.getElem_cons_succ]
        refine ⟨fun hnr => hthis.1 hnr, fun hr => ?_⟩
        have h2 := hthis.2 hr
        have hcount : recycCountBefore speed (tr :: rest) (i + 1) =
            recycCountBefore speed rest i + 1 := by
          simp [recycCountBefore, hrec]
        rw [hcount, Finset.sum_range_succ', h2]
        ring
    · rw [if_neg hrec] at hsome
      by_cases hhit : tr.x - speed ≤ pw + player_x_offset ∧
          player_x_offset < tr.x - speed ∧ py ≤ tr.height
      · rw [if_pos hhit] at hsome
        exact absurd hsome (by simp)
      · rw [if_neg hhit, Option.map_eq_some'] at hsome
        obtain ⟨l, hl, rfl⟩ := hsome
        obtain ⟨hlen, hpos⟩ := ih gaps off l hl
        refine ⟨by simpa using hlen, ?_⟩
        intro i hi hi2
        cases i with
        | zero =>
          refine ⟨fun _ => rfl, fun hr => absurd hr hrec⟩
        | succ i =>
          have hi' : i < rest.length := by simpa using hi
          have hi2' : i < l.length := by simpa using hi2
          have hthis := hpos i hi' hi2'
          simp only [List.getElem_cons_succ]
          have hcount : recycCountBefore speed (tr :: rest) (i + 1) =
              recycCountBefore speed rest i := by
            simp [recycCountBefore, hrec]
          rw [hcount]
          exact hthis

/-- C1: one physics step computes the new velocity as
`v0 - 30*dt*y0`, then the new height as `y0 + v1*dt`, clamping both to
`0` when the new height is `≤ 0`; hence the height after a step is never
negative, and the velocity is exactly `0` whenever the clamp fires. -/
theorem gravity_integration_spec (y0 v0 dt : ℝ) (hdt : 0 ≤ dt) :
    dinoStep ⟨y0, v0⟩ dt =
      (if y0 + (v0 - GRAVITY_ACCEL * dt * y0) * dt ≤ 0 then (⟨0, 0⟩ : Player)
       else ⟨y0 + (v0 - GRAVITY_ACCEL * dt * y0) * dt, v0 - GRAVITY_ACCEL * dt * y0⟩) ∧
    0 ≤ (dinoStep ⟨y0, v0⟩ dt).y ∧
    (y0 + (v0 - GRAVITY_ACCEL * dt * y0) * dt ≤ 0 → (dinoStep ⟨y0, v0⟩ dt).v = 0) := by
  unfold dinoStep GRAVITY_ACCEL
  refine ⟨rfl, ?_, ?_⟩
  · by_cases h : y0 + (v0 - 30 * dt * y0) * dt ≤ 0
    · simp [h]
    · simp only [h, if_false]
      linarith [not_le.mp h]
  · intro h
    simp [h]

theorem gravity_integration_spec_witness :
    (0 : ℝ) ≤ 1 ∧ 0 ≤ (dinoStep ⟨0, 0⟩ 1).y :=
  ⟨by norm_num, (gravity_integration_spec 0 0 1 (by norm_num)).2.1⟩

/-- C3: a jump triggered while grounded increases the velocity by
exactly `JUMP_SCALE * sqrt(clamp(held_ms, 50, 120) / 120)`. -/
theorem jump_impulse_formula (p : Player) (held_ms : ℕ) (h : p.y = 0) :
    (jump p held_ms).v =
      p.v + JUMP_SCALE *
        Real.sqrt ((min (max held_ms MIN_CHARGE_MS) MAX_CHARGE_MS : ℕ) / (MAX_CHARGE_MS : ℝ)) := by
  unfold jump
  rw [if_pos h]
  have hnn : (0 : ℝ) ≤ (clamped_elapsed held_ms : ℝ) / (max_down_time : ℝ) := by
    positivity
  simp only [impulse, Real.sqrt_eq_rpow]
  norm_num [clamped_elapsed, max_down_time, MAX_CHARGE_MS, MIN_CHARGE_MS, JUMP_SCALE]

theorem jump_impulse_formula_witness :
    (⟨0, 5⟩ : Player).y = 0 ∧
    (jump ⟨0, 5⟩ 80).v =
      (⟨0, 5⟩ : Player).v + JUMP_SCALE *
        Real.sqrt ((min (max 80 MIN_CHARGE_MS) MAX_CHARGE_MS : ℕ) / (MAX_CHARGE_MS : ℝ)) :=
  ⟨rfl, jump_impulse_formula ⟨0, 5⟩ 80 rfl⟩

/-- C8: on the charge window the impulse is strictly monotone in the
held duration, and below the window it is never negative. -/
theorem impulse_monotone :
    (∀ a b : ℕ, MIN_CHARGE_MS ≤ a → a < b → b ≤ MAX_CHARGE_MS →
      impulse a < impulse b) ∧
    (∀ e : ℕ, e < MIN_CHARGE_MS → 0 ≤ impulse e) := by
  constructor
  · intro a b ha hab hb
    have ha' : clamped_elapsed a = a := by
      unfold clamped_elapsed max_down_time
      unfold MIN_CHARGE_MS at ha
      unfold MAX_CHARGE_MS at hb
      omega
    have hb' : clamped_elapsed b = b := by
      unfold clamped_elapsed max_down_time
      unfold MIN_CHARGE_MS at ha
      unfold MAX_CHARGE_MS at hb
      omega
    unfold impulse
    rw [ha', hb']
    have hcast : (a : ℝ) < (b : ℝ) := by exact_mod_cast hab
    have hdiv : (a : ℝ) / (max_down_time : ℝ) < (b : ℝ) / (max_down_time : ℝ) := by
      apply div_lt_div_of_pos_right hcast
      norm_num [max_down_time]
    have hpow := Real.rpow_lt_rpow (by positivity) hdiv (by norm_num : (0:ℝ) < 1/2)
    nlinarith [hpow]
  · intro e he
    unfold impulse
    have := Real.rpow_nonneg
      (show (0:ℝ) ≤ (clamped_elapsed e : ℝ) / (max_down_time : ℝ) by positivity)
      ((1:ℝ)/2)
    nlinarith [this]

theorem impulse_monotone_witness :
    impulse 50 < impulse 120 ∧ 0 ≤ impulse 0 :=
  ⟨impulse_monotone.1 50 120 (by norm_num [MIN_CHARGE_MS]) (by norm_num)
      (by norm_num [MAX_CHARGE_MS]),
   impulse_monotone.2 0 (by norm_num [MIN_CHARGE_MS])⟩

/-- C9: triggering a jump while airborne leaves the player entirely
unchanged (no buffering: the call has no effect at all). -/
theorem airborne_jump_noop (p : Player) (elapsed : ℕ) (h : 0 < p.y) :
    jump p elapsed = p := by
  unfold jump
  rw [if_neg (ne_of_gt h)]

theorem airborne_jump_noop_witness :
    (0 : ℝ) < (⟨1, 0⟩ : Player).y ∧ jump ⟨1, 0⟩ 100 = ⟨1, 0⟩ :=
  ⟨by norm_num, airborne_jump_noop ⟨1, 0⟩ 100 (by norm_num)⟩

/-- C10: a grounded jump sets the height from `0.0` to `1.0` in the same
call, in addition to adding the impulse, so a further jump trigger
before the next ground clamp is a no-op. -/
theorem grounded_jump_sets_airborne (p : Player) (elapsed : ℕ) (h : p.y = 0) :
    (jump p elapsed).y = 1 ∧ (jump p elapsed).v = p.v + impulse elapsed ∧
    ∀ elapsed2 : ℕ, jump (jump p elapsed) elapsed2 = jump p elapsed := by
  unfold jump
  rw [if_pos h]
  refine ⟨by simp [h], rfl, ?_⟩
  intro e2
  rw [if_neg (by simp [h])]

theorem grounded_jump_sets_airborne_witness :
    (⟨0, 0⟩ : Player).y = 0 ∧
    ((jump ⟨0, 0⟩ 120).y = 1 ∧ (jump ⟨0, 0⟩ 120).v = (⟨0, 0⟩ : Player).v + impulse 120 ∧
      ∀ elapsed2 : ℕ, jump (jump ⟨0, 0⟩ 120) elapsed2 = jump ⟨0, 0⟩ 120) :=
  ⟨rfl, grounded_jump_sets_airborne ⟨0, 0⟩ 120 rfl⟩

/-- C5: when the charge has persisted to `max_down_time` ms without a
touch-up, the frame check clears the controller state (idle) and fires
exactly one jump, whose effect equals a jump with held duration exactly
`MAX_CHARGE_MS` (the re-sampled elapsed duration is clamped back to it). -/
theorem auto_release_at_max_charge (p : Player) (e1 e2 : ℕ)
    (h1 : MAX_CHARGE_MS ≤ e1) (h2 : e1 ≤ e2) :
    autoReleaseCheck p (some e1) e2 = (none, jump p e2) ∧
    jump p e2 = jump p MAX_CHARGE_MS := by
  have hclamp : clamped_elapsed e2 = clamped_elapsed MAX_CHARGE_MS := by
    unfold clamped_elapsed max_down_time
    unfold MAX_CHARGE_MS at h1 ⊢
    omega
  constructor
  · have he : max_down_time ≤ e1 := by
      unfold max_down_time
      unfold MAX_CHARGE_MS at h1
      omega
    unfold autoReleaseCheck
    simp [he]
  · unfold jump impulse
    rw [hclamp]

/-- C2: the round ends with the terminal collision outcome exactly when
some obstacle that was not recycled this frame satisfies, at its
scrolled position, `x ≤ player.width + offset` and `x > offset` and
`player.y ≤ height`, with `offset` the player's fixed horizontal
position; otherwise the loop continues. -/
theorem collision_terminal_iff (py pw W speed off : ℝ) (trees : List Tree)
    (gaps : ℕ → ℝ) :
    treeLoop py pw W speed trees gaps off = none ↔
      ∃ tr ∈ trees, ¬ (tr.x - speed + tr.width ≤ 0) ∧
        (tr.x - speed ≤ pw + player_x_offset ∧ player_x_offset < tr.x - speed ∧
          py ≤ tr.height) :=
  treeLoop_eq_none_iff py pw W speed trees gaps off

/-- C4: on a completed frame every obstacle has scrolled left by
`SCROLL_SPEED * dt * t^(1/7)`; an obstacle whose right edge reached the
left screen edge is repositioned to the display width `W` plus the
cumulative offset (the sum of the uniformly sampled gaps consumed by the
obstacles recycled earlier in the same frame), hence to a position
`≥ W`; and a recycled obstacle is exempt from the collision check, so a
frame in which every non-recycled obstacle misses never ends the
round. -/
theorem obstacle_advance_and_recycle (py pw W dt t : ℝ) (trees : List Tree)
    (gaps : ℕ → ℝ) (hg : ∀ n, 150 ≤ gaps n ∧ gaps n < 500) :
    (∀ l2, treeLoop py pw W (SCROLL_SPEED * dt * t ^ ((1:ℝ)/7)) trees gaps 0 = some l2 →
      l2.length = trees.length ∧
      ∀ i (hi : i < trees.length) (hi2 : i < l2.length),
        (¬ treeRecycles (SCROLL_SPEED * dt * t ^ ((1:ℝ)/7)) trees[i] →
          l2[i].x = trees[i].x - SCROLL_SPEED * dt * t ^ ((1:ℝ)/7)) ∧
        (treeRecycles (SCROLL_SPEED * dt * t ^ ((1:ℝ)/7)) trees[i] →
          l2[i].x = W + Finset.sum
            (Finset.range (recycCountBefore (SCROLL_SPEED * dt * t ^ ((1:ℝ)/7)) trees i))
            gaps ∧
          W ≤ l2[i].x)) ∧
    ((∀ tr ∈ trees, ¬ treeRecycles (SCROLL_SPEED * dt * t ^ ((1:ℝ)/7)) tr →
        ¬ treeHits py pw (SCROLL_SPEED * dt * t ^ ((1:ℝ)/7)) tr) →
      treeLoop py pw W (SCROLL_SPEED * dt * t ^ ((1:ℝ)/7)) trees gaps 0 ≠ none) := by
  constructor
  · intro l2 hsome
    obtain ⟨hlen, hpos⟩ :=
      treeLoop_some_spec py pw W (SCROLL_SPEED * dt * t ^ ((1:ℝ)/7)) trees gaps 0 l2 hsome
    refine ⟨hlen, ?_⟩
    intro i hi hi2
    have hthis := hpos i hi hi2
    refine ⟨hthis.1, fun hr => ?_⟩
    have h2 := hthis.2 hr
    have hsum : 0 ≤ Finset.sum
        (Finset.range (recycCountBefore (SCROLL_SPEED * dt * t ^ ((1:ℝ)/7)) trees i)) gaps :=
      Finset.sum_nonneg fun n _ => le_trans (by norm_num) (hg n).1
    constructor
    · rw [h2]
      ring
    · rw [h2]
      linarith
  · intro hmiss hnone
    obtain ⟨tr, htr, hnr, hhit⟩ :=
      (treeLoop_eq_none_iff py pw W (SCROLL_SPEED * dt * t ^ ((1:ℝ)/7)) trees gaps 0).mp hnone
    exact hmiss tr htr hnr hhit

theorem obstacle_advance_and_recycle_witness :
    (∀ n : ℕ, (150:ℝ) ≤ 200 ∧ (200:ℝ) < 500) ∧
    treeLoop 0 9 500 (SCROLL_SPEED * 0 * (0:ℝ) ^ ((1:ℝ)/7)) [⟨-50, 10, 20⟩]
      (fun _ => 200) 0 ≠ none := by
  refine ⟨fun n => by norm_num, ?_⟩
  apply (obstacle_advance_and_recycle 0 9 500 0 0 [⟨-50, 10, 20⟩] (fun _ => 200)
    (fun n => by norm_num)).2
  intro tr htr hnr
  apply absurd _ hnr
  simp only [List.mem_singleton] at htr
  subst htr
  show (-50 : ℝ) - SCROLL_SPEED * 0 * (0:ℝ) ^ ((1:ℝ)/7) + 10 ≤ 0
  rw [Real.zero_rpow (by norm_num)]
  norm_num

/-- C6 counterexample: at a frame delta of 1/288 s the claimed sleep
duration `max 0 (1/144 - dt)` is nonzero, but the code sleeps 0 seconds,
because the frame period is computed with integer semantics and is 0,
not 1/144 of a second. -/
theorem frame_pacing_counterexample :
    sleptSeconds ((1:ℝ)/288) = 0 ∧ max 0 ((1:ℝ)/144 - (1:ℝ)/288) ≠ 0 ∧
    (frame_period : ℝ) ≠ (1:ℝ)/144 := by
  refine ⟨?_, by norm_num, by rw [frame_period_eq]; norm_num⟩
  unfold sleptSeconds sleep_time
  rw [frame_period_eq]
  norm_num

/-- C6 amended: the sleep computation truncates `1 / 144` to `0` with
integer semantics, so the end-of-frame sleep time is `0 - dt`; for every
nonnegative frame delta the loop therefore sleeps 0 seconds and imposes
no frame-rate cap (in particular no sleep occurs when frame work exceeds
any budget). -/
theorem frame_pacing_never_sleeps (dt : ℝ) (hdt : 0 ≤ dt) :
    frame_period = 0 ∧ sleep_time dt = 0 - dt ∧ sleptSeconds dt = 0 := by
  refine ⟨frame_period_eq, ?_, ?_⟩
  · unfold sleep_time
    rw [frame_period_eq]
    norm_num
  · unfold sleptSeconds sleep_time
    rw [frame_period_eq]
    rw [if_neg (by push_cast; linarith)]

theorem frame_pacing_never_sleeps_witness :
    (0:ℝ) ≤ 1/1000 ∧
    (frame_period = 0 ∧ sleep_time (1/1000) = 0 - 1/1000 ∧ sleptSeconds (1/1000) = 0) :=
  ⟨by norm_num, frame_pacing_never_sleeps (1/1000) (by norm_num)⟩

/-- C7 counterexample: the renderer's draw operation does not return the
full-screen dirty region the frame loop flushes (nor any nonempty
region): its returned list is empty. -/
theorem draw_regions_counterexample :
    sceneDrawRegions ≠ presentDirtyRects 2170 60 ∧ sceneDrawRegions = [] := by
  constructor
  · simp [sceneDrawRegions, presentDirtyRects]
  · rfl

/-- C7 amended: the draw operation always returns an empty list of
changed rectangles; the frame loop ignores that return value and instead
reports the single full-screen rectangle to the display backend every
frame. -/
theorem draw_returns_no_regions (width height : ℕ) :
    sceneDrawRegions = [] ∧
    presentDirtyRects width height = [{ x1 := 0, y1 := 0, x2 := height, y2 := width }] :=
  ⟨rfl, rfl⟩

theorem auto_release_at_max_charge_witness :
    MAX_CHARGE_MS ≤ 120 ∧ (120 : ℕ) ≤ 130 ∧
    (autoReleaseCheck ⟨0, 0⟩ (some 120) 130 = (none, jump ⟨0, 0⟩ 130) ∧
      jump ⟨0, 0⟩ 130 = jump ⟨0, 0⟩ MAX_CHARGE_MS) :=
  ⟨le_refl _, by norm_num, auto_release_at_max_charge ⟨0, 0⟩ 120 130 (le_refl _) (by norm_num)⟩

end Dinobar
